import Mathlib

/-!
Shallow embedding of the resume-screener core (src/server/main.py):
the field parser `extract_resume_data`, the requirement matcher
`filter_candidates_by_vacancy`, and the ranking oracle adapter
`get_best_candidate_gemini`, together with theorems settling the
specification claims about them.

Modelling conventions:
* Python `str` is Lean `String` / `List Char`; character classes
  (`\s`, `\w`, `\d`, `[A-Z]`, case folding) are modelled over ASCII,
  which covers every concrete input appearing in the development.
* Python regular expressions are compiled to explicit Lean scanning
  functions that implement the leftmost-match / greedy / lazy semantics
  of the concrete pattern they embed (noted at each definition).
* `re.compile` errors are modelled by an explicit parenthesis/class
  balance scanner `scanBal`: the phone pattern of the source contains an
  unmatched ')' and therefore raises `re.error` at every call, which the
  embedding reflects by `extract_resume_data` returning `Except.error`.
-/

namespace ResumeScreener

/-- Python `\s` (ASCII range): space, tab, newline, carriage return,
vertical tab, form feed. -/
def isPyWs (c : Char) : Bool :=
  c == ' ' || c == '\t' || c == '\n' || c == '\r' || c == '\x0b' || c == '\x0c'

/-- ASCII uppercase letter, the class `[A-Z]` without `re.IGNORECASE`. -/
def isAsciiUpper (c : Char) : Bool := decide ('A' ≤ c ∧ c ≤ 'Z')

/-- ASCII lowercase letter, the class `[a-z]` without `re.IGNORECASE`. -/
def isAsciiLower (c : Char) : Bool := decide ('a' ≤ c ∧ c ≤ 'z')

/-- The class `[A-Z]` under `re.IGNORECASE`: any ASCII letter. -/
def isAsciiLetter (c : Char) : Bool := isAsciiUpper c || isAsciiLower c

/-- ASCII digit, the class `\d` (ASCII model). -/
def isAsciiDigit (c : Char) : Bool := decide ('0' ≤ c ∧ c ≤ '9')

/-- Python `\w` word character (ASCII model): letter, digit or underscore. -/
def isWordChar (c : Char) : Bool := isAsciiLetter c || isAsciiDigit c || c == '_'

/-- Python `str.lower()` (ASCII model). -/
def lowerL (l : List Char) : List Char := l.map Char.toLower

/-- Python `str.strip()` (ASCII whitespace model): drop leading and
trailing whitespace. -/
def stripL (l : List Char) : List Char :=
  ((l.dropWhile isPyWs).reverse.dropWhile isPyWs).reverse

/-- Match the exact character list `pat` at the head of `s`; on success
return the remainder of `s`. -/
def consumeLit : List Char → List Char → Option (List Char)
  | [], s => some s
  | _ :: _, [] => none
  | p :: ps, c :: cs => if p = c then consumeLit ps cs else none

/-- Case-insensitively match `pat` at the head of `s` (ASCII folding, as
`re.IGNORECASE` does on the source's ASCII patterns); on success return
the consumed characters of `s` in their original case, and the remainder. -/
def ciConsume : List Char → List Char → Option (List Char × List Char)
  | [], s => some ([], s)
  | _ :: _, [] => none
  | p :: ps, c :: cs =>
    if p.toLower = c.toLower then
      (ciConsume ps cs).map (fun pr => (c :: pr.1, pr.2))
    else none

/-- Deduplicate a list keeping the first occurrence of each element.
This models Python's `list(set(xs))` up to order: CPython's set iteration
order is unspecified (hash-based), so the embedding fixes first-occurrence
order; theorems about the result avoid depending on the order where the
source leaves it open. -/
def dedupFirst : List String → List String
  | [] => []
  | x :: xs => x :: (dedupFirst xs).filter (fun y => y != x)

/-! ### A parenthesis/character-class balance scanner for regex patterns

`re.compile` rejects a pattern whose group parentheses are unbalanced
(`re.error: unbalanced parenthesis` / `missing ), unterminated
subpattern`).  `scanBal` models exactly this aspect of compilation: it
walks the pattern, skipping backslash escapes and the contents of
`[...]` character classes (including the literal `]` allowed right after
`[` or `[^`), counting group parentheses.  It returns `false` precisely
when a `)` appears at depth zero, a group or class is left open, or the
pattern ends in a lone backslash. -/

/-- Scanner state: outside any class, just after `[`, just after `[^`,
or inside the body of a class. -/
inductive ScanMode where
  | top
  | classOpen
  | classCaret
  | classBody
deriving DecidableEq, Repr

/-- Walk a regex pattern tracking group-parenthesis depth and character
classes; `false` means `re.compile` raises on this pattern. -/
def scanBal (d : Nat) (m : ScanMode) : List Char → Bool
  | [] => m == ScanMode.top && d == 0
  | c :: rest =>
    match m with
    | ScanMode.top =>
      if c = '\\' then
        match rest with
        | [] => false
        | _ :: r2 => scanBal d ScanMode.top r2
      else if c = '(' then scanBal (d + 1) ScanMode.top rest
      else if c = ')' then
        match d with
        | 0 => false
        | d' + 1 => scanBal d' ScanMode.top rest
      else if c = '[' then scanBal d ScanMode.classOpen rest
      else scanBal d ScanMode.top rest
    | ScanMode.classOpen =>
      if c = '^' then scanBal d ScanMode.classCaret rest
      else if c = '\\' then
        match rest with
        | [] => false
        | _ :: r2 => scanBal d ScanMode.classBody r2
      else scanBal d ScanMode.classBody rest
    | ScanMode.classCaret =>
      if c = '\\' then
        match rest with
        | [] => false
        | _ :: r2 => scanBal d ScanMode.classBody r2
      else scanBal d ScanMode.classBody rest
    | ScanMode.classBody =>
      if c = ']' then scanBal d ScanMode.top rest
      else if c = '\\' then
        match rest with
        | [] => false
        | _ :: r2 => scanBal d ScanMode.classBody r2
      else scanBal d ScanMode.classBody rest

/-- A regex pattern's group parentheses and classes are balanced, i.e.
`re.compile` does not raise an unbalanced-parenthesis error on it. -/
def regexBalanced (pat : String) : Bool := scanBal 0 ScanMode.top pat.data

/-- The phone-number pattern of `extract_resume_data` (src/server/main.py,
line 152), verbatim.  Its final `)` has no matching opening group
parenthesis (the `(` inside `[- .(]` is a class member, not a group), so
`re.compile` raises `re.error: unbalanced parenthesis` on it. -/
def phonePattern : String :=
  "(?:(?:\\+?\\d\x7b1,3\x7d)?[- .(]*?)?(?:\\d\x7b3\x7d)?[- .)]*?\\d\x7b3\x7d[- .]?\\d\x7b4\x7d|\\d\x7b10,11\x7d)"

/-- The message of the `re.error` that compiling `phonePattern` raises. -/
def phoneRegexError : String := "re.error: unbalanced parenthesis"

/-! ### Field parser: `extract_resume_data` (src/server/main.py lines 119-190) -/

/-- The sentinel value every field of the parser defaults to. -/
def sentinel : String := "Not found"

/-- One repetition unit `[A-Z][a-z]+` of the name pattern: an uppercase
letter followed by a maximal nonempty run of lowercase letters (shorter
runs cannot help the continuation, which never starts with a lowercase
letter, so maximal-munch is faithful).  Returns the consumed characters
and the remainder. -/
def capWord : List Char → Option (List Char × List Char)
  | [] => none
  | c :: rest =>
    if isAsciiUpper c then
      match rest.span isAsciiLower with
      | (lo, r) => if lo.isEmpty then none else some (c :: lo, r)
    else none

/-- One repetition `[A-Z][a-z]+\s+` of the name pattern: a capitalized
word followed by a maximal nonempty whitespace run (the continuation
always starts with `[A-Z]`, never whitespace, so maximal-munch is
faithful). -/
def capWordWs (s : List Char) : Option (List Char × List Char) :=
  match capWord s with
  | none => none
  | some (w, r) =>
    match r.span isPyWs with
    | (ws, r2) => if ws.isEmpty then none else some (w ++ ws, r2)

/-- The anchored name regex `^([A-Z][a-z]+\s+){1,2}[A-Z][a-z]+`
(src/server/main.py line 136) applied to the first line: greedy `{1,2}`
tries two repetitions before one, then requires a final capitalized word.
Returns the matched span (`group(0)`). -/
def nameMatch (s : List Char) : Option (List Char) :=
  match capWordWs s with
  | none => none
  | some (c1, r1) =>
    match capWordWs r1 with
    | some (c2, r2) =>
      match capWord r2 with
      | some (w, _) => some (c1 ++ c2 ++ w)
      | none =>
        match capWord r1 with
        | some (w, _) => some (c1 ++ w)
        | none => none
    | none =>
      match capWord r1 with
      | some (w, _) => some (c1 ++ w)
      | none => none

/-- Python `text.split("\n")`: split at every newline, keeping empty
pieces; the result is always nonempty. -/
def splitNl : List Char → List (List Char)
  | [] => [[]]
  | '\n' :: rest => [] :: splitNl rest
  | c :: rest =>
    match splitNl rest with
    | [] => [[c]]
    | l :: ls => (c :: l) :: ls

/-- Split into the maximal runs of characters not satisfying `p`,
dropping empty pieces — Python's separator-run splitting. -/
def splitRunsP (p : Char → Bool) (cur : List Char) : List Char → List (List Char)
  | [] => if cur.isEmpty then [] else [cur.reverse]
  | c :: rest =>
    if p c then
      if cur.isEmpty then splitRunsP p [] rest
      else cur.reverse :: splitRunsP p [] rest
    else splitRunsP p (c :: cur) rest

/-- Python `len(line.split())`: the number of maximal nonempty
whitespace-separated words. -/
def wordCount (line : List Char) : Nat :=
  (splitRunsP isPyWs [] line).length

/-- Python `lines[0]` after `lines = text.split("\n")`: `str.split` always
returns a nonempty list, so the source's `if lines:` guard is vacuous and
the model reads the first element totally via `headD`. -/
def firstLineOf (text : String) : List Char := (splitNl text.data).headD []

/-- The name rule of `extract_resume_data` (lines 132-140): look at
`lines[0]` (the first line, empty or not); if the anchored name regex
matches, use the matched span stripped; else if the first line has at
most 4 whitespace-separated words, use the first line stripped; else
leave the sentinel. -/
def nameField (text : String) : String :=
  match nameMatch (firstLineOf text) with
  | some m => (String.mk (stripL m))
  | none =>
    if wordCount (firstLineOf text) ≤ 4 then String.mk (stripL (firstLineOf text))
    else sentinel

/-- The local-part class `[a-zA-Z0-9_.+-]` of the email regex. -/
def isEmailLocal (c : Char) : Bool :=
  isAsciiLetter c || isAsciiDigit c || c == '_' || c == '.' || c == '+' || c == '-'

/-- The domain class `[a-zA-Z0-9-]` of the email regex. -/
def isEmailDom (c : Char) : Bool := isAsciiLetter c || isAsciiDigit c || c == '-'

/-- The top-level-domain class `[a-zA-Z0-9-.]` of the email regex. -/
def isEmailTld (c : Char) : Bool :=
  isAsciiLetter c || isAsciiDigit c || c == '-' || c == '.'

/-- Attempt the email regex `[a-zA-Z0-9_.+-]+@[a-zA-Z0-9-]+\.[a-zA-Z0-9-.]+`
(line 144) at the given start position.  Each class excludes the literal
that follows it, so the greedy `+` runs admit no useful backtracking and
maximal-munch is faithful. -/
def tryEmailAt (s : List Char) : Option (List Char) :=
  match s.span isEmailLocal with
  | (r1, s1) =>
    if r1.isEmpty then none else
    match s1 with
    | '@' :: s2 =>
      match s2.span isEmailDom with
      | (r2, s3) =>
        if r2.isEmpty then none else
        match s3 with
        | '.' :: s4 =>
          match s4.span isEmailTld with
          | (r3, _) =>
            if r3.isEmpty then none else
            some (r1 ++ '@' :: (r2 ++ '.' :: r3))
        | _ => none
    | _ => none

/-- Leftmost match of the email regex anywhere in the text
(`re.search` semantics). -/
def emailMatch : List Char → Option (List Char)
  | [] => none
  | c :: rest =>
    match tryEmailAt (c :: rest) with
    | some m => some m
    | none => emailMatch rest

/-- The lazy body `(.*?)(?=\n[A-Z]|$)` of the section-capture regexes
under `re.DOTALL` and `re.IGNORECASE`: starting right after the header
delimiter, the lazy star stops at the first position where either end of
text follows, a final newline follows, or a newline followed by an ASCII
letter follows (`[A-Z]` under `IGNORECASE` matches both cases).  The `$`
alternative guarantees the lookahead always eventually succeeds, so the
whole regex matches whenever a header with delimiter occurs. -/
def lazyBody : List Char → List Char
  | [] => []
  | ['\n'] => []
  | '\n' :: c :: rest =>
    if isAsciiLetter c then [] else '\n' :: lazyBody (c :: rest)
  | c :: rest => c :: lazyBody rest

/-- Try each header alternative in order at the current position
(case-insensitively), each of which must be followed by `:` or a newline
(`[:\n]`); return the text after the delimiter. -/
def tryHeadersAt (hs : List (List Char)) (s : List Char) : Option (List Char) :=
  match hs with
  | [] => none
  | h :: t =>
    match ciConsume h s with
    | some (_, d :: r2) =>
      if d = ':' || d = '\n' then some r2 else tryHeadersAt t s
    | _ => tryHeadersAt t s

/-- Leftmost position where some header alternative followed by its
delimiter matches; returns the text after the delimiter. -/
def findHeaderRest (hs : List (List Char)) : List Char → Option (List Char)
  | [] => none
  | c :: rest =>
    match tryHeadersAt hs (c :: rest) with
    | some r => some r
    | none => findHeaderRest hs rest

/-- The section-capture regex `(H1|H2|...)[:\n](.*?)(?=\n[A-Z]|$)` with
`re.IGNORECASE | re.DOTALL` (lines 164, 172, 184): `group(2)` of the
leftmost match, or `none` when no header-plus-delimiter occurs. -/
def sectionCapture (hs : List String) (text : String) : Option String :=
  (findHeaderRest (hs.map String.data) text.data).map
    (fun body => String.mk (lazyBody body))

/-- Headers of the education section regex (line 164). -/
def eduHeaders : List String := ["Education", "Academic Background"]

/-- Headers of the skills section regex (line 172). -/
def skillsHeaders : List String := ["Skills", "Core Competencies", "Technical Skills"]

/-- Headers of the experience section regex (line 184). -/
def expHeaders : List String := ["Experience", "Work Experience", "Employment History"]

/-- The fixed technology vocabulary of the skills fallback
(line 176), in the alternation order of the source regex. -/
def vocab : List String :=
  ["Python", "Java", "SQL", "JavaScript", "React", "Angular", "Vue",
   "Docker", "Kubernetes", "Git", "Linux", "AWS", "Azure", "GCP"]

/-- Try each vocabulary alternative in source order, case-insensitively,
at the current position; return the matched characters in their original
case and the remainder. -/
def tryVocabAt (ws : List (List Char)) (s : List Char) : Option (List Char × List Char) :=
  match ws with
  | [] => none
  | w :: t =>
    match ciConsume w s with
    | some (m, r) => some (m, r)
    | none => tryVocabAt t s

/-- Fuel-driven scan implementing `re.findall(vocabAlternation, text,
re.IGNORECASE)`: leftmost, non-overlapping matches, each recorded in its
original case, resuming after the matched text.  Every step consumes at
least one character, so fuel `text.length` makes the scan run to the end
of the text. -/
def findallVocabF : Nat → List Char → List (List Char)
  | 0, _ => []
  | _ + 1, [] => []
  | fuel + 1, c :: rest =>
    match tryVocabAt (vocab.map String.data) (c :: rest) with
    | some (m, r) => m :: findallVocabF fuel r
    | none => findallVocabF fuel rest

/-- `re.findall` of the vocabulary alternation over the whole text. -/
def findallVocab (s : List Char) : List (List Char) := findallVocabF s.length s

/-- The education rule (lines 163-168): section capture with the education
headers, stripped; sentinel when no header occurs. -/
def educationField (text : String) : String :=
  match sectionCapture eduHeaders text with
  | some body => String.mk (stripL body.data)
  | none => sentinel

/-- The skills rule (lines 171-180): section capture with the skills
headers, stripped; otherwise `", ".join(list(set(findall(vocab))))` — the
distinct matched strings joined (first-occurrence order in this model,
CPython's set order being unspecified); sentinel when the fallback finds
nothing. -/
def skillsField (text : String) : String :=
  match sectionCapture skillsHeaders text with
  | some body => String.mk (stripL body.data)
  | none =>
    match findallVocab text.data with
    | [] => sentinel
    | ms => String.intercalate ", " (dedupFirst (ms.map String.mk))

/-- The experience rule (lines 183-188): section capture with the
experience headers, stripped; sentinel when no header occurs. -/
def experienceField (text : String) : String :=
  match sectionCapture expHeaders text with
  | some body => String.mk (stripL body.data)
  | none => sentinel

/-- The structured record `extract_resume_data` builds (its `data` dict,
whose six keys are all initialized to the sentinel). -/
structure ResumeFields where
  full_name : String
  email : String
  phone : String
  education : String
  skills : String
  experience : String
deriving DecidableEq, Repr

/-- All six fields set to the sentinel, the initial value of the parser's
dict and its result for falsy input text. -/
def sentinelFields : ResumeFields :=
  ⟨sentinel, sentinel, sentinel, sentinel, sentinel, sentinel⟩

/-- The field parser `extract_resume_data` (lines 119-190).  Empty text
returns the all-sentinel record.  For non-empty text the rules run in
source order: name, email, then phone — and the phone rule calls
`re.search` on `phonePattern`, whose compilation raises `re.error`
(`phonePattern` has an unmatched `)`, see `phonePattern_unbalanced`), so
the exception propagates and the function never returns a record.  The
education, skills and experience rules below the phone rule are modelled
by `educationField`, `skillsField` and `experienceField`; the value given
to `phone` in the dead branch is immaterial (no matcher semantics exist
for a pattern that does not compile). -/
def extract_resume_data (text : String) : Except String ResumeFields :=
  if text = "" then .ok sentinelFields
  else
    let full_name := nameField text
    let email :=
      match emailMatch text.data with
      | some m => String.mk m
      | none => sentinel
    if regexBalanced phonePattern then
      .ok ⟨full_name, email, sentinel,
           educationField text, skillsField text, experienceField text⟩
    else
      .error phoneRegexError

/-! ### Requirement matcher: `filter_candidates_by_vacancy`
(src/server/main.py lines 494-560) -/

/-- A stored resume row (the columns the matcher and ranker read).
Columns other than `id` and `filename` are nullable in the schema, hence
`Option String`. -/
structure ResumeRec where
  id : Nat
  filename : String
  full_name : Option String
  email : Option String
  phone : Option String
  skills : Option String
  experience : Option String
  content : Option String
deriving DecidableEq, Repr

/-- An application row, as the matcher sees it after the join: its
(possibly missing) resume. -/
structure ApplicationRec where
  resume : Option ResumeRec
deriving DecidableEq, Repr

/-- A vacancy row with its joined applications. -/
structure VacancyRec where
  id : Nat
  title : String
  description : Option String
  requirements : Option String
  applications : List ApplicationRec
deriving DecidableEq, Repr

/-- A separator character of the requirement tokenizer's split pattern
`[,\s\n]+`: a comma or whitespace. -/
def isSepChar (c : Char) : Bool := c == ',' || isPyWs c

/-- The requirement tokenizer (line 509):
`[skill.strip().lower() for skill in re.split(r'[,\s\n]+', reqs) if skill.strip()]`.
Splitting `re.split(r'[,\s\n]+', s)` and dropping the pieces with empty
`strip()` equals splitting into maximal non-separator runs; the pieces
contain no separator characters, so the `strip()` is kept only for
faithfulness. -/
def tokenize (reqs : String) : List (List Char) :=
  (splitRunsP isSepChar [] reqs.data).map (fun w => lowerL (stripL w))

/-- Whether an optional character is a word character (`false` beyond the
ends of the corpus). -/
def optWord (o : Option Char) : Bool :=
  match o with
  | some c => isWordChar c
  | none => false

/-- Attempt the pattern `\b` + literal token + `\b` at the current
position: the token's characters must occur verbatim here, with a word
boundary (word-ness changes across the position) on each side.  `prev` is
the character before the current position.  The tokenizer never produces
an empty token, so the empty-pattern case does not arise; it is mapped to
`false`. -/
def wordMatchAt (tok : List Char) (prev : Option Char) (s : List Char) : Bool :=
  match tok, consumeLit tok s with
  | t0 :: _, some rest =>
    (optWord prev != isWordChar t0) &&
    (isWordChar (tok.getLastD t0) != optWord rest.head?)
  | _, _ => false

/-- Scan the corpus for a match of `\b` + token + `\b` at any position,
carrying the previous character for the left boundary test. -/
def hasWordMatchAux (tok : List Char) (prev : Option Char) : List Char → Bool
  | [] => false
  | c :: rest =>
    wordMatchAt tok prev (c :: rest) || hasWordMatchAux tok (some c) rest

/-- `re.search(r'\b' + re.escape(tok) + r'\b', corpus)` as a Boolean
(line 531): the escaped token is a literal (see `reEscape_literal`), so
the search is a literal whole-word occurrence test. -/
def hasWordMatch (tok corpus : List Char) : Bool :=
  hasWordMatchAux tok none corpus

/-- The per-candidate search corpus (line 523):
`(resume.skills or "").lower() + " " + (resume.content or "").lower()`. -/
def corpusOf (r : ResumeRec) : List Char :=
  lowerL (r.skills.getD "").data ++ ' ' :: lowerL (r.content.getD "").data

/-- The inner token loop (lines 530-534): scan required tokens in order
and stop at the first whole-word hit, which becomes
`matched_skill_example`. -/
def firstHit (tokens : List (List Char)) (corpus : List Char) : Option (List Char) :=
  match tokens with
  | [] => none
  | t :: ts => if hasWordMatch t corpus then some t else firstHit ts corpus

/-- One entry of the endpoint's `filtered_candidates` list
(lines 537-544). -/
structure CandOut where
  id : Nat
  filename : String
  full_name : Option String
  email : Option String
  phone : Option String
  matched_skills_approx : String
deriving DecidableEq, Repr

/-- Build the output entry for a matched resume and its evidence token. -/
def mkOut (r : ResumeRec) (tok : List Char) : CandOut :=
  ⟨r.id, r.filename, r.full_name, r.email, r.phone, String.mk tok⟩

/-- The candidate loop (lines 521-544): iterate the applied resumes in
order; skip a resume whose corpus strips to empty; append an output entry
exactly when some required token matches, carrying the first hit. -/
def filterLoop (tokens : List (List Char)) : List ResumeRec → List CandOut
  | [] => []
  | r :: rest =>
    if (stripL (corpusOf r)).isEmpty then filterLoop tokens rest
    else
      match firstHit tokens (corpusOf r) with
      | some t => mkOut r t :: filterLoop tokens rest
      | none => filterLoop tokens rest

/-- The distinct outcomes of the filter endpoint. -/
inductive FilterOutcome where
  | vacancyNotFound
  | noRequirements
  | noKeywords
  | noCandidates (vid : Nat)
  | matched (vid : Nat) (title : String) (candidates : List CandOut)
deriving DecidableEq, Repr

/-- The endpoint `filter_candidates_by_vacancy` (lines 494-560): resolve
the vacancy; `if not vacancy.requirements` (null or empty) report the
no-requirements warning; tokenize and report if no keywords survive; take
the resumes of this vacancy's applications only
(`[app.resume for app in vacancy.applications if app.resume]`), report if
none; otherwise run the candidate loop. -/
def filter_candidates_by_vacancy (vacancy? : Option VacancyRec) : FilterOutcome :=
  match vacancy? with
  | none => FilterOutcome.vacancyNotFound
  | some v =>
    if v.requirements.getD "" = "" then FilterOutcome.noRequirements
    else
      let tokens := tokenize (v.requirements.getD "")
      if tokens.isEmpty then FilterOutcome.noKeywords
      else
        let applied := v.applications.filterMap (fun a => a.resume)
        if applied.isEmpty then FilterOutcome.noCandidates v.id
        else FilterOutcome.matched v.id v.title (filterLoop tokens applied)

/-- Modelled from the spec's matcher description (section 4.3 / C2), for
comparison with `filterLoop`: the output is the input-ordered
`filterMap` keeping exactly the candidates with a non-blank corpus and
some whole-word token hit, each paired with the first hitting token. -/
def filterByRequirementsSpec (tokens : List (List Char)) (cands : List ResumeRec) :
    List CandOut :=
  cands.filterMap (fun r =>
    if (stripL (corpusOf r)).isEmpty then none
    else ((tokens.find? (fun t => hasWordMatch t (corpusOf r))).map (mkOut r)))

/-! ### `re.escape` and literal patterns (for the matcher's token search) -/

/-- The characters `re.escape` prefixes with a backslash (CPython's
`_special_chars_map`): `()[]{}?*+-|^$\.&~#` and the six ASCII whitespace
characters. -/
def reSpecialChars : List Char :=
  ['(', ')', '[', ']', '\x7b', '\x7d', '?', '*', '+', '-', '|', '^',
   '$', '\\', '.', '&', '~', '#', ' ', '\t', '\n', '\r', '\x0b', '\x0c']

/-- Whether `re.escape` escapes this character. -/
def reSpecial (c : Char) : Bool := decide (c ∈ reSpecialChars)

/-- `re.escape`: prefix every special character with a backslash. -/
def reEscapeL : List Char → List Char
  | [] => []
  | c :: r => if reSpecial c then '\\' :: c :: reEscapeL r else c :: reEscapeL r

/-- The pattern the matcher compiles for a required token (line 531):
`r'\b' + re.escape(tok) + r'\b'`. -/
def wordBoundPat (tok : List Char) : List Char :=
  '\\' :: 'b' :: (reEscapeL tok ++ ['\\', 'b'])

/-- The regex metacharacters: characters that act as operators when they
appear bare in a pattern. -/
def metaChars : List Char :=
  ['.', '^', '$', '*', '+', '?', '\x7b', '\x7d', '[', ']', '(', ')', '|', '\\']

/-- Whether a bare occurrence of this character acts as a regex operator. -/
def isMeta (c : Char) : Bool := decide (c ∈ metaChars)

/-- Interpret a regex fragment as a pure literal: every character either
appears bare and is no metacharacter, or is a backslash escape of a
non-alphanumeric character (alphanumeric escapes such as `\d` or `\b` are
operators).  Returns the denoted literal string, or `none` if anything in
the fragment could act as an operator. -/
def literalChars : List Char → Option (List Char)
  | [] => some []
  | c :: r =>
    if c = '\\' then
      match r with
      | [] => none
      | c2 :: r2 =>
        if isAsciiLetter c2 || isAsciiDigit c2 then none
        else (literalChars r2).map (fun l => c2 :: l)
    else if isMeta c then none
    else (literalChars r).map (fun l => c :: l)

/-! ### Ranking oracle adapter: `get_best_candidate_gemini`
(src/server/main.py lines 564-686) -/

/-- The outcome of one call to the generation service: a response with
its text and (when truthy) a block reason, or a raised exception.  The
`blockReason` field is `some r` exactly when
`response.prompt_feedback.block_reason` is present and truthy, in which
case `r` is its `.name`; the `AttributeError`/falsy cases are `none`. -/
inductive GenOutcome where
  | resp (text : String) (blockReason : Option String)
  | exn (msg : String)

/-- The distinct outcomes of the best-candidate endpoint. -/
inductive BestResult where
  | notConfigured
  | vacancyNotFound
  | noApplicants (vid : Nat)
  | best (vid : Nat) (title : String) (resume : ResumeRec) (justification : String)
  | dataConsistency (tag : String) (raw : String)
  | blocked (reason : String) (raw : String)
  | parseFailure (raw : String)
  | oracleError (msg : String)
deriving Repr

/-- Python truncation `(s[:n] + '...') if len(s) > n else s`. -/
def truncAt (n : Nat) (s : String) : String :=
  if n < s.length then s.take n ++ "..." else s

/-- A Python f-string renders `None` as the text `None`. -/
def optStr (o : Option String) : String := o.getD "None"

/-- Python truthiness of an optional string column: present, nonempty
and (for the guarded fields) not the sentinel. -/
def presentNotSentinel (o : Option String) : Bool :=
  match o with
  | some s => s != "" && s != sentinel
  | none => false

/-- The per-candidate block of `resumes_text` (lines 590-609). -/
def resumeBlock (r : ResumeRec) : String :=
  "--- Candidate RESUME_ID_" ++ toString r.id ++ " ---\n"
  ++ (match r.full_name with
      | some n => if n ≠ "" ∧ n ≠ sentinel then "Name: " ++ n ++ "\n" else ""
      | none => "")
  ++ (match r.skills with
      | some s => if s ≠ "" ∧ s ≠ sentinel then "Skills: " ++ s ++ "\n" else ""
      | none => "")
  ++ (match r.experience with
      | some e => if e ≠ "" ∧ e ≠ sentinel then
          "Experience Summary: " ++ truncAt 1000 e ++ "\n" else ""
      | none => "")
  ++ (match r.content with
      | some ctext =>
        if ctext ≠ "" then "Resume Text Snippet:\n" ++ truncAt 1500 ctext ++ "\n\n"
        else "Resume Text: [Not Available]\n\n"
      | none => "Resume Text: [Not Available]\n\n")

/-- The prompt sent to the generation service (lines 585-620). -/
def buildPrompt (v : VacancyRec) (applied : List ResumeRec) : String :=
  "Vacancy ID: " ++ toString v.id ++ "\nVacancy Title: " ++ v.title
  ++ "\nDescription: " ++ optStr v.description
  ++ "\nRequirements: " ++ optStr v.requirements ++ "\n\n"
  ++ "Analyze ONLY the following candidate resumes who have applied for this specific vacancy:\n\n"
  ++ String.join (applied.map resumeBlock)
  ++ "Task: Select the SINGLE MOST SUITABLE candidate for this vacancy based ONLY on the provided information. "
  ++ "Briefly justify your choice (2-3 sentences), highlighting key matches with the requirements. "
  ++ "Format your response EXACTLY as follows:\n"
  ++ "Best Candidate: RESUME_ID_XXX\n"
  ++ "Justification: [Your justification here]"

/-- Attempt the reply pattern `Best Candidate:\s*(RESUME_ID_\d+)`
(`re.IGNORECASE`, line 627) at the current position: the literal
`Best Candidate:` case-insensitively, a maximal whitespace run (greedy
`\s*`; the following `R` is no whitespace, so maximal-munch is faithful),
the literal `RESUME_ID_` case-insensitively, then a maximal nonempty
digit run.  Returns `(group(0), group(1))` in the original case. -/
def tryTagAt (s : List Char) : Option (List Char × List Char) :=
  match ciConsume "Best Candidate:".data s with
  | none => none
  | some (o1, r1) =>
    match r1.span isPyWs with
    | (ws, r2) =>
      match ciConsume "RESUME_ID_".data r2 with
      | none => none
      | some (o2, r3) =>
        match r3.span isAsciiDigit with
        | (ds, _) =>
          if ds.isEmpty then none
          else some (o1 ++ ws ++ o2 ++ ds, o2 ++ ds)

/-- Leftmost match of the reply pattern (`re.search` semantics). -/
def findBestTag : List Char → Option (List Char × List Char)
  | [] => none
  | c :: rest =>
    match tryTagAt (c :: rest) with
    | some p => some p
    | none => findBestTag rest

/-- The suffix of `s` after the first occurrence of `pat`
(`s.split(pat, 1)[1]`), or `none` when `pat` does not occur. -/
def afterFirst (pat : List Char) : List Char → Option (List Char)
  | [] => if pat.isEmpty then some [] else none
  | c :: rest =>
    match consumeLit pat (c :: rest) with
    | some r => some r
    | none => afterFirst pat rest

/-- The suffix after the first colon (`s.split(":", 1)[1]` when a colon
is known to occur). -/
def afterFirstColon : List Char → List Char
  | [] => []
  | ':' :: rest => rest
  | _ :: rest => afterFirstColon rest

/-- Isolate the justification from the raw reply (lines 634-642): the
text after the matched line, stripped; a leading case-insensitive
`Justification:` label is removed.  The `IndexError` fallback string is
kept for totality, though `group(0)` always occurs in the reply. -/
def justificationOf (raw : String) (g0 : List Char) : String :=
  match afterFirst g0 raw.data with
  | some rest =>
    let jp := stripL rest
    if "justification:".data.isPrefixOf (lowerL jp) then
      String.mk (stripL (afterFirstColon jp))
    else String.mk jp
  | none => "Justification not found after ID line."

/-- The tag key a resume gets in `resume_map` (line 591):
`f"RESUME_ID_{resume.id}"`. -/
def tagOf (r : ResumeRec) : String := "RESUME_ID_" ++ toString r.id

/-- `resume_map.get(tag)`: the map is a dict filled in list order, so a
later resume with the same tag overwrites an earlier one; lookup therefore
finds the last occurrence. -/
def mapLookup (applied : List ResumeRec) (tag : String) : Option ResumeRec :=
  applied.reverse.find? (fun r => tagOf r == tag)

/-- The endpoint `get_best_candidate_gemini` (lines 564-686).
`configured` models `GEMINI_API_KEY and gemini_model` (refused up front
when false); the vacancy is resolved; the candidate set is exactly the
resumes of this vacancy's applications, and an empty set is reported as
`noApplicants` before any oracle call (the result does not depend on
`oracle` on that path).  Otherwise the prompt is built and the oracle
called once: an exception is contained as `oracleError`; a reply without
the fixed-format line is reported as `blocked` (when a truthy block
reason is present) or `parseFailure`, both carrying the raw reply; a tag
that resolves in `resume_map` yields `best`, an unknown tag
`dataConsistency` with the raw reply. -/
def get_best_candidate_gemini (configured : Bool) (vacancy? : Option VacancyRec)
    (oracle : String → GenOutcome) : BestResult :=
  if configured then
    match vacancy? with
    | none => BestResult.vacancyNotFound
    | some v =>
      let applied := v.applications.filterMap (fun a => a.resume)
      if applied.isEmpty then BestResult.noApplicants v.id
      else
        match oracle (buildPrompt v applied) with
        | GenOutcome.exn m => BestResult.oracleError m
        | GenOutcome.resp text blockReason =>
          match findBestTag text.data with
          | some (g0, g1) =>
            let tagU := (String.mk g1).toUpper
            match mapLookup applied tagU with
            | some r => BestResult.best v.id v.title r (justificationOf text g0)
            | none => BestResult.dataConsistency tagU text
          | none =>
            match blockReason with
            | some br => BestResult.blocked br text
            | none => BestResult.parseFailure text
  else BestResult.notConfigured

/-! ### Concrete fixtures used to instantiate theorems with hypotheses -/

/-- A stored resume whose skills column says `Python`. -/
def rPy : ResumeRec :=
  { id := 3, filename := "jane.pdf", full_name := some "Jane Doe",
    email := some "jane.doe@example.com", phone := some "415-555-0100",
    skills := some "Python", experience := some "3 years backend",
    content := some "" }

/-- A vacancy requiring `Python` with one applicant, `rPy`. -/
def vMatch : VacancyRec :=
  { id := 1, title := "Backend", description := some "dev",
    requirements := some "Python", applications := [⟨some rPy⟩] }

/-- A vacancy with one application row whose resume is missing, so its
applied-resume list is empty. -/
def vEmpty : VacancyRec :=
  { id := 7, title := "Ops", description := none, requirements := none,
    applications := [⟨none⟩] }

/-- A vacancy with one applicant, used to drive the oracle reply paths. -/
def vOne : VacancyRec :=
  { id := 2, title := "QA", description := none, requirements := some "sql",
    applications := [⟨some rPy⟩] }

/-- The education fixture of the specification's testable property. -/
def eduFixture : String := "Education:\nBSc CS\nSkills: Python"

/-! ## Theorems settling the claims -/

/-- C3: the claim says `parseFields` terminates without raising for every
input and returns six string fields.  The code does not: its phone rule
compiles `phonePattern`, whose group parentheses are unbalanced, so
`re.search` raises `re.error` for every non-empty text (only the empty
text, which returns the all-sentinel record before the phone rule, is
exempt).  Evaluated here on the specification's own fixture text, the
parser raises instead of returning a record. -/
theorem parser_raises_on_nonempty_input :
    extract_resume_data
      "Jane Doe\njane.doe@example.com\n+1 415-555-0100\nSkills: Python, Docker"
      = Except.error phoneRegexError ∧
    extract_resume_data "" = Except.ok sentinelFields := by
  constructor
  · rfl
  · rfl

/-- C9: the phone rule never runs: the phone pattern of line 152 has an
unmatched `)` (its `(` candidates inside `[- .(]` are class members), so
`re.compile` rejects it and `extract_resume_data` raises on any text —
here on a text holding a ten-digit phone number the claim says would be
accepted. -/
theorem phone_pattern_does_not_compile :
    regexBalanced phonePattern = false ∧
    extract_resume_data "Call 415-555-0100 now" = Except.error phoneRegexError := by
  constructor
  · rfl
  · rfl

/-- C1: on the fixture `"Education:\nBSc CS\nSkills: Python"` the claim
says the parser returns education `"BSc CS"`.  The code instead raises
`re.error` (the phone rule precedes the education rule and its pattern
does not compile); moreover the education rule taken alone captures the
empty string, not `"BSc CS"`: the lazy `(.*?)(?=\n[A-Z]|$)` body stops at
the first position where a newline followed by a letter looks ahead,
which is immediately after the header's colon. -/
theorem education_fixture_capture_empty :
    extract_resume_data eduFixture = Except.error phoneRegexError ∧
    sectionCapture eduHeaders eduFixture = some "" ∧
    educationField eduFixture = "" := by
  refine ⟨?_, ?_, ?_⟩ <;> rfl

/-- C5 counterexample: for the text `"\nJohn Smith"` the claim's name
rule reads the first non-empty line, `"John Smith"`, which matches the
capitalized pattern, so the claim yields `"John Smith"`.  The code reads
`lines[0]`, the literal first line, which here is empty: the rule returns
the empty string. -/
theorem name_rule_uses_first_line_even_if_empty :
    nameMatch ("John Smith".data) = some ("John Smith".data) ∧
    nameField "\nJohn Smith" = "" ∧
    nameField "\nJohn Smith" ≠ "John Smith" := by
  refine ⟨rfl, rfl, ?_⟩
  intro h
  rw [show nameField "\nJohn Smith" = "" from rfl] at h
  exact absurd h (by decide)

/-- C6 counterexample: on the text `"Git git"` (which has no skills
header) the fallback scan is case-insensitive, so both `"Git"` and
`"git"` are matches of the same vocabulary token `Git`; `set()` keeps
them as distinct exact strings, and the joined result lists the skill
twice, contradicting the claim that no skill appears twice. -/
theorem skills_fallback_duplicates_by_case :
    sectionCapture skillsHeaders "Git git" = none ∧
    skillsField "Git git" = "Git, git" ∧
    (findallVocab ("Git git").data).map String.mk = ["Git", "git"] ∧
    lowerL ("Git".data) = lowerL ("git".data) := by
  refine ⟨?_, ?_, ?_, ?_⟩ <;> rfl

/-- C5 amended: the name rule reads `lines[0]`, the literal first line of
the text (even when that line is empty, as the counterexample shows —
not the first non-empty line): if the anchored pattern of two or three
capitalized words (each an uppercase letter followed by one or more
lowercase letters) matches at the start of that line, the matched span
(stripped) is used; else, if the line has at most 4 whitespace-separated
words, the whole line stripped is used; else the field is the sentinel. -/
theorem name_rule_amended (text : String) (h : text ≠ "") :
    (∀ m, nameMatch (firstLineOf text) = some m →
        nameField text = String.mk (stripL m)) ∧
    (nameMatch (firstLineOf text) = none →
        wordCount (firstLineOf text) ≤ 4 →
        nameField text = String.mk (stripL (firstLineOf text))) ∧
    (nameMatch (firstLineOf text) = none →
        ¬ wordCount (firstLineOf text) ≤ 4 →
        nameField text = sentinel) := by
  refine ⟨?_, ?_, ?_⟩
  · intro m hm
    simp [nameField, hm]
  · intro hm hw
    simp [nameField, hm, hw]
  · intro hm hw
    simp [nameField, hm, hw]

/-- Witness for `name_rule_amended` at the text `"Jane Doe"`, whose first
line matches the capitalized pattern. -/
theorem name_rule_amended_witness : nameField "Jane Doe" = "Jane Doe" :=
  ((name_rule_amended "Jane Doe" (by decide)).1 ("Jane Doe".data) rfl).trans rfl

/-- C4: a vacancy whose applications yield no resumes is reported as
`noApplicants` for every oracle whatsoever — in particular the result
does not depend on the oracle, so the generation service is never
consulted on this path. -/
theorem no_applicants_skips_oracle (v : VacancyRec) (oracle : String → GenOutcome)
    (h : v.applications.filterMap (fun a => a.resume) = []) :
    get_best_candidate_gemini true (some v) oracle = BestResult.noApplicants v.id := by
  simp [get_best_candidate_gemini, h]

/-- Witness for `no_applicants_skips_oracle`: the fixture vacancy with a
resume-less application, against an oracle that would fail if called. -/
theorem no_applicants_skips_oracle_witness :
    get_best_candidate_gemini true (some vEmpty)
      (fun _ => GenOutcome.exn "service down") = BestResult.noApplicants 7 :=
  no_applicants_skips_oracle vEmpty _ rfl

/-- The inner token loop visits the required tokens in order and stops at
the first whole-word hit: it is `List.find?` of the match test. -/
theorem firstHit_eq_find (tokens : List (List Char)) (corpus : List Char) :
    firstHit tokens corpus = tokens.find? (fun t => hasWordMatch t corpus) := by
  induction tokens with
  | nil => rfl
  | cons t ts ih =>
    by_cases h : hasWordMatch t corpus
    · simp [firstHit, h]
    · simp only [Bool.not_eq_true] at h
      simp [firstHit, h, ih]

/-- C2: the matcher's candidate loop equals the specification's
description: in input order, keep exactly the candidates whose corpus
does not strip to empty and in which some required token occurs as a
whole-word match, pairing each with the first required token (in token
order) that matches; everything else is dropped. -/
theorem filter_matches_spec (reqs : String) (cands : List ResumeRec) :
    filterLoop (tokenize reqs) cands = filterByRequirementsSpec (tokenize reqs) cands := by
  generalize tokenize reqs = tokens
  induction cands with
  | nil => rfl
  | cons r rest ih =>
    simp only [filterLoop, filterByRequirementsSpec, List.filterMap_cons] at ih ⊢
    by_cases hc : (stripL (corpusOf r)).isEmpty = true
    · simp [hc, ih]
    · simp only [hc, if_false, Bool.false_eq_true]
      rw [firstHit_eq_find]
      cases hfind : (tokens.find? (fun t => hasWordMatch t (corpusOf r))) with
      | some t => simp [hfind, ih]
      | none => simp [hfind, ih]

/-- Every entry the candidate loop emits comes from a resume of the input
list, tagged with some token. -/
theorem filterLoop_mem (tokens : List (List Char)) :
    ∀ (l : List ResumeRec) (c : CandOut), c ∈ filterLoop tokens l →
      ∃ r ∈ l, ∃ t, c = mkOut r t := by
  intro l
  induction l with
  | nil =>
    intro c hc
    simp [filterLoop] at hc
  | cons r rest ih =>
    intro c hc
    simp only [filterLoop] at hc
    by_cases hstrip : (stripL (corpusOf r)).isEmpty = true
    · rw [if_pos hstrip] at hc
      obtain ⟨r', hr', t, ht⟩ := ih c hc
      exact ⟨r', List.mem_cons_of_mem _ hr', t, ht⟩
    · rw [if_neg hstrip] at hc
      cases hf : firstHit tokens (corpusOf r) with
      | some t0 =>
        rw [hf] at hc
        rcases List.mem_cons.mp hc with h | h
        · exact ⟨r, List.mem_cons_self _ _, t0, h⟩
        · obtain ⟨r', hr', t, ht⟩ := ih c h
          exact ⟨r', List.mem_cons_of_mem _ hr', t, ht⟩
      | none =>
        rw [hf] at hc
        obtain ⟨r', hr', t, ht⟩ := ih c hc
        exact ⟨r', List.mem_cons_of_mem _ hr', t, ht⟩

/-- C7: every candidate the filter endpoint outputs for a vacancy is the
resume of one of that vacancy's applications — the matcher never scores
a record that did not apply to the vacancy being matched. -/
theorem matcher_scores_only_applicants (v : VacancyRec) (vid : Nat) (title : String)
    (out : List CandOut) (c : CandOut)
    (hres : filter_candidates_by_vacancy (some v) = FilterOutcome.matched vid title out)
    (hc : c ∈ out) :
    ∃ a ∈ v.applications, ∃ r, a.resume = some r ∧ ∃ t, c = mkOut r t := by
  simp only [filter_candidates_by_vacancy] at hres
  by_cases h1 : v.requirements.getD "" = ""
  · rw [if_pos h1] at hres
    simp at hres
  · rw [if_neg h1] at hres
    by_cases h2 : (tokenize (v.requirements.getD "")).isEmpty = true
    · rw [if_pos h2] at hres
      simp at hres
    · rw [if_neg h2] at hres
      by_cases h3 : (v.applications.filterMap (fun a => a.resume)).isEmpty = true
      · rw [if_pos h3] at hres
        simp at hres
      · rw [if_neg h3] at hres
        have hout : filterLoop (tokenize (v.requirements.getD ""))
            (v.applications.filterMap (fun a => a.resume)) = out := by
          injection hres
        rw [← hout] at hc
        obtain ⟨r, hr, t, ht⟩ := filterLoop_mem _ _ _ hc
        obtain ⟨a, ha, har⟩ := List.mem_filterMap.mp hr
        exact ⟨a, ha, r, har, t, ht⟩

/-- Witness for `matcher_scores_only_applicants`: the fixture vacancy
requiring Python with its single applicant. -/
theorem matcher_scores_only_applicants_witness :
    ∃ a ∈ vMatch.applications, ∃ r, a.resume = some r ∧
      ∃ t, mkOut rPy ("python".data) = mkOut r t :=
  matcher_scores_only_applicants vMatch 1 "Backend" [mkOut rPy ("python".data)]
    (mkOut rPy ("python".data)) rfl (List.mem_singleton.mpr rfl)

/-- C8: when the oracle's reply lacks the fixed-format
`Best Candidate: RESUME_ID_<id>` line (located case-insensitively), the
endpoint reports `blocked` (when a truthy block reason accompanies the
reply) or `parseFailure` — never success and never a crash — and both
outcomes carry the raw reply text. -/
theorem unparseable_reply_reports_raw (v : VacancyRec) (oracle : String → GenOutcome)
    (text : String) (br? : Option String)
    (happ : v.applications.filterMap (fun a => a.resume) ≠ [])
    (hor : oracle (buildPrompt v (v.applications.filterMap (fun a => a.resume))) =
      GenOutcome.resp text br?)
    (hno : findBestTag text.data = none) :
    get_best_candidate_gemini true (some v) oracle =
      match br? with
      | some br => BestResult.blocked br text
      | none => BestResult.parseFailure text := by
  have hne : (v.applications.filterMap (fun a => a.resume)).isEmpty = false := by
    cases hl : v.applications.filterMap (fun a => a.resume) with
    | nil => exact absurd hl happ
    | cons a l => rfl
  simp only [get_best_candidate_gemini, hne, Bool.false_eq_true, if_false, if_true, hor, hno]
  cases br? <;> rfl

/-- Witness for `unparseable_reply_reports_raw`: the fixture vacancy with
one applicant and an oracle replying free text without the tag line. -/
theorem unparseable_reply_reports_raw_witness :
    get_best_candidate_gemini true (some vOne)
      (fun _ => GenOutcome.resp "I am unsure which one wins." none) =
      BestResult.parseFailure "I am unsure which one wins." :=
  unparseable_reply_reports_raw vOne _ "I am unsure which one wins." none
    (by simp [vOne]) rfl rfl

/-- Scanning past any non-special character at top level neither opens
nor closes anything. -/
theorem scanBal_top_other (d : Nat) (c : Char) (l : List Char)
    (h1 : c ≠ '\\') (h2 : c ≠ '(') (h3 : c ≠ ')') (h4 : c ≠ '[') :
    scanBal d ScanMode.top (c :: l) = scanBal d ScanMode.top l := by
  rw [scanBal.eq_def]
  simp only []
  rw [if_neg h1, if_neg h2, if_neg h3, if_neg h4]

/-- An escaped fragment produced by `re.escape` is transparent to the
balance scanner: every special character is skipped behind its backslash
and every other character is inert. -/
theorem scanBal_reEscape_append (l : List Char) :
    ∀ (s : List Char) (d : Nat),
      scanBal d ScanMode.top (reEscapeL l ++ s) = scanBal d ScanMode.top s := by
  induction l with
  | nil => intro s d; rfl
  | cons c r ih =>
    intro s d
    by_cases hc : reSpecial c = true
    · simp only [reEscapeL, if_pos hc, List.cons_append]
      show scanBal d ScanMode.top (reEscapeL r ++ s) = scanBal d ScanMode.top s
      exact ih s d
    · have hmem : c ∉ reSpecialChars := fun hm => hc (decide_eq_true hm)
      have h1 : c ≠ '\\' := fun e => hmem (e ▸ (by decide : ('\\' : Char) ∈ reSpecialChars))
      have h2 : c ≠ '(' := fun e => hmem (e ▸ (by decide : ('(' : Char) ∈ reSpecialChars))
      have h3 : c ≠ ')' := fun e => hmem (e ▸ (by decide : (')' : Char) ∈ reSpecialChars))
      have h4 : c ≠ '[' := fun e => hmem (e ▸ (by decide : ('[' : Char) ∈ reSpecialChars))
      simp only [reEscapeL, if_neg hc, List.cons_append]
      rw [scanBal_top_other d c _ h1 h2 h3 h4]
      exact ih s d

/-- `re.escape` output denotes exactly the original token when read as a
literal: every escape it emits covers a non-alphanumeric character, and
every bare character it emits is no metacharacter. -/
theorem literalChars_reEscape (l : List Char) :
    literalChars (reEscapeL l) = some l := by
  induction l with
  | nil => rfl
  | cons c r ih =>
    by_cases hc : reSpecial c = true
    · have hmem : c ∈ reSpecialChars := of_decide_eq_true hc
      have halnum : (isAsciiLetter c || isAsciiDigit c) = false := by
        fin_cases hmem <;> decide
      simp [reEscapeL, hc, literalChars, halnum, ih]
    · have hmem : c ∉ reSpecialChars := fun hm => hc (decide_eq_true hm)
      have h1 : c ≠ '\\' := fun e => hmem (e ▸ (by decide : ('\\' : Char) ∈ reSpecialChars))
      have hmeta : ¬ (isMeta c = true) := by
        intro hb
        have hcm : c ∈ metaChars := of_decide_eq_true hb
        have hsub : c ∈ reSpecialChars := by
          fin_cases hcm <;> decide
        exact hmem hsub
      simp only [reEscapeL, if_neg hc]
      rw [literalChars.eq_def]
      simp only []
      rw [if_neg h1, if_neg hmeta, ih]
      rfl

/-- C10: for every required token, the pattern the matcher compiles —
`\b` + `re.escape(token)` + `\b` — is balanced (so `re.compile` never
raises the way the phone pattern does) and its escaped middle reads back
as exactly the literal token, with no character acting as a regex
operator. -/
theorem token_pattern_literal_and_balanced (tok : String) :
    regexBalanced (String.mk (wordBoundPat tok.data)) = true ∧
    literalChars (reEscapeL tok.data) = some tok.data := by
  constructor
  · show scanBal 0 ScanMode.top (wordBoundPat tok.data) = true
    simp only [wordBoundPat]
    show scanBal 0 ScanMode.top (reEscapeL tok.data ++ ['\\', 'b']) = true
    rw [scanBal_reEscape_append]
    rfl
  · exact literalChars_reEscape tok.data

/-- First-occurrence deduplication yields a list without duplicates. -/
theorem dedupFirst_nodup (l : List String) : (dedupFirst l).Nodup := by
  induction l with
  | nil => simp [dedupFirst]
  | cons x xs ih =>
    rw [dedupFirst]
    refine List.nodup_cons.mpr ⟨?_, ih.filter _⟩
    intro hx
    have hpx := List.of_mem_filter hx
    simp at hpx

/-- A case-insensitive literal match consumes text that lower-cases to
the pattern lower-cased. -/
theorem ciConsume_lower (p : List Char) :
    ∀ s m r, ciConsume p s = some (m, r) → lowerL m = lowerL p := by
  induction p with
  | nil =>
    intro s m r h
    simp only [ciConsume, Option.some.injEq, Prod.mk.injEq] at h
    rw [← h.1]
  | cons a ps ih =>
    intro s m r h
    cases s with
    | nil => simp [ciConsume] at h
    | cons c cs =>
      simp only [ciConsume] at h
      by_cases hc : a.toLower = c.toLower
      · rw [if_pos hc] at h
        cases hrec : ciConsume ps cs with
        | none => rw [hrec] at h; simp at h
        | some pr =>
          rw [hrec] at h
          simp only [Option.map_some', Option.some.injEq] at h
          have hm : c :: pr.1 = m := congrArg Prod.fst h
          rw [← hm]
          show c.toLower :: lowerL pr.1 = a.toLower :: lowerL ps
          rw [show lowerL pr.1 = lowerL ps from ih cs pr.1 pr.2 (by rw [hrec]), hc]
      · rw [if_neg hc] at h
        simp at h

/-- Any match the vocabulary alternation makes lower-cases to one of the
alternatives. -/
theorem tryVocabAt_lower (ws : List (List Char)) (s m r : List Char)
    (h : tryVocabAt ws s = some (m, r)) : ∃ w ∈ ws, lowerL m = lowerL w := by
  induction ws with
  | nil => simp [tryVocabAt] at h
  | cons w t ih =>
    simp only [tryVocabAt] at h
    cases hc : ciConsume w s with
    | some pr =>
      obtain ⟨pm, prr⟩ := pr
      rw [hc] at h
      simp only [Option.some.injEq] at h
      injection h with h1 h2
      subst h1
      exact ⟨w, List.mem_cons_self _ _, ciConsume_lower w s pm prr hc⟩
    | none =>
      rw [hc] at h
      obtain ⟨w', hw', hl⟩ := ih h
      exact ⟨w', List.mem_cons_of_mem _ hw', hl⟩

/-- Every string `re.findall` of the vocabulary alternation returns
lower-cases to one of the vocabulary words. -/
theorem findallVocabF_lower :
    ∀ (fuel : Nat) (s m : List Char), m ∈ findallVocabF fuel s →
      ∃ w ∈ vocab, lowerL m = lowerL w.data := by
  intro fuel
  induction fuel with
  | zero =>
    intro s m h
    simp [findallVocabF] at h
  | succ n ih =>
    intro s m h
    cases s with
    | nil => simp [findallVocabF] at h
    | cons c cs =>
      rw [findallVocabF] at h
      cases hc : tryVocabAt (vocab.map String.data) (c :: cs) with
      | some pr =>
        obtain ⟨pm, prr⟩ := pr
        rw [hc] at h
        rcases List.mem_cons.mp h with rfl | hmem
        · obtain ⟨w, hw, hl⟩ := tryVocabAt_lower _ _ _ _ hc
          obtain ⟨v, hv, rfl⟩ := List.mem_map.mp hw
          exact ⟨v, hv, hl⟩
        · exact ih _ _ hmem
      | none =>
        rw [hc] at h
        exact ih _ _ h

/-- C6 amended: with no recognized skills header, the fallback scans the
whole text case-insensitively for the fixed vocabulary; it returns the
sentinel exactly when no vocabulary token occurs, and otherwise joins
with `", "` the distinct matched strings — distinct as exact strings
(the join has no duplicate entries), while matches of the same
vocabulary word in different letter case are kept separately, and every
matched string lower-cases to a vocabulary word. -/
theorem skills_fallback_amended (text : String)
    (h : sectionCapture skillsHeaders text = none) :
    (findallVocab text.data = [] → skillsField text = sentinel) ∧
    (findallVocab text.data ≠ [] →
      skillsField text =
        String.intercalate ", " (dedupFirst ((findallVocab text.data).map String.mk)) ∧
      (dedupFirst ((findallVocab text.data).map String.mk)).Nodup ∧
      ∀ w ∈ findallVocab text.data,
        lowerL w ∈ vocab.map (fun v => lowerL v.data)) := by
  constructor
  · intro h0
    simp [skillsField, h, h0]
  · intro h0
    refine ⟨?_, dedupFirst_nodup _, ?_⟩
    · cases hf : findallVocab text.data with
      | nil => exact absurd hf h0
      | cons a l => simp [skillsField, h, hf]
    · intro w hw
      obtain ⟨v, hv, hl⟩ := findallVocabF_lower _ _ _ hw
      exact List.mem_map.mpr ⟨v, hv, hl.symm⟩

/-- Witness for `skills_fallback_amended` at the header-less text
`"I use Docker daily"`, where the fallback finds `Docker`. -/
theorem skills_fallback_amended_witness : skillsField "I use Docker daily" = "Docker" :=
  (((skills_fallback_amended "I use Docker daily" rfl).2 (by decide)).1).trans rfl

end ResumeScreener
